import Mathlib

/-
Verification of the DEX structural comparator (`diff.py`, class
`DEXDeepComparator`) of the reproducible-tests repository.

The comparator consumes the output of the external `dexparser` library:
a parsed container exposing the raw string table (byte entries), the type
table, the prototype and method-id tables and the class-definition table.
That parser is not part of the repository's own sources; where its
behaviour matters, the definitions below are modelled from the
specification (their doc comments say so explicitly and cite the
specification's words).  Everything else is a direct translation of
`diff.py`: Python dictionaries become association lists that preserve
insertion order, raised exceptions become `Except.error`, and Python's
strict `bytes.decode` with the default codec becomes an executable UTF-8
decoder over byte lists.
-/

set_option autoImplicit false

namespace DexDiff

/-- Python exceptions that the unguarded code of `diff.py` can raise while
extracting models: list indexing out of range, and a failed strict decode
of a byte string. -/
inductive PyError where
  | indexError
  | unicodeDecodeError
  deriving Repr, DecidableEq

/-- Fatal container-format errors of the Dex Container Parser (spec section
4.1 and section 7): bad magic, unrecognized endian tag, invalid header
size, a (count, offset) pair overrunning the buffer, or a buffer shorter
than the minimum header size. -/
inductive FormatError where
  | headerTooShort
  | magicMismatch
  | invalidEndianTag
  | invalidHeaderSize
  | tableOverrun
  deriving Repr, DecidableEq

/-- Which of the two input buffers a fatal error comes from. -/
inductive Side where
  | dex1
  | dex2
  deriving Repr, DecidableEq

/-- Turn an `Option` into an `Except`, the given error standing for the
exception Python would raise on the `none` case. -/
def exceptOfOption {α : Type} (o : Option α) (e : PyError) : Except PyError α :=
  match o with
  | some a => Except.ok a
  | none => Except.error e

/-- A byte in the UTF-8 continuation range 0x80 to 0xBF. -/
def isCont (b : Nat) : Bool := 0x80 ≤ b && b ≤ 0xBF

/-- Admissible second byte of a three-byte UTF-8 sequence led by `b1`:
the strict ranges that exclude overlong encodings (lead 0xE0) and
surrogate code points (lead 0xED). -/
def utf8Second3 (b1 b2 : Nat) : Bool :=
  if b1 = 0xE0 then 0xA0 ≤ b2 && b2 ≤ 0xBF
  else if b1 = 0xED then 0x80 ≤ b2 && b2 ≤ 0x9F
  else isCont b2

/-- Admissible second byte of a four-byte UTF-8 sequence led by `b1`:
the strict ranges that exclude overlong encodings (lead 0xF0) and code
points beyond U+10FFFF (lead 0xF4). -/
def utf8Second4 (b1 b2 : Nat) : Bool :=
  if b1 = 0xF0 then 0x90 ≤ b2 && b2 ≤ 0xBF
  else if b1 = 0xF4 then 0x80 ≤ b2 && b2 ≤ 0x8F
  else isCont b2

/-- Decode one UTF-8 scalar value from the front of a byte list, returning
the code point and the remaining bytes, or `none` on malformed input.
This follows the strict table of valid sequences, the one Python's
`bytes.decode` with the default codec enforces. -/
def utf8Char : List Nat → Option (Nat × List Nat)
  | [] => none
  | b1 :: rest =>
    if b1 ≤ 0x7F then some (b1, rest)
    else if 0xC2 ≤ b1 && b1 ≤ 0xDF then
      match rest with
      | b2 :: r =>
        if isCont b2 then some ((b1 - 0xC0) * 0x40 + (b2 - 0x80), r) else none
      | [] => none
    else if 0xE0 ≤ b1 && b1 ≤ 0xEF then
      match rest with
      | b2 :: b3 :: r =>
        if utf8Second3 b1 b2 && isCont b3 then
          some ((b1 - 0xE0) * 0x1000 + (b2 - 0x80) * 0x40 + (b3 - 0x80), r)
        else none
      | _ => none
    else if 0xF0 ≤ b1 && b1 ≤ 0xF4 then
      match rest with
      | b2 :: b3 :: b4 :: r =>
        if utf8Second4 b1 b2 && isCont b3 && isCont b4 then
          some ((b1 - 0xF0) * 0x40000 + (b2 - 0x80) * 0x1000 +
                (b3 - 0x80) * 0x40 + (b4 - 0x80), r)
        else none
      | _ => none
    else none

/-- Decode a whole byte list as UTF-8 code points.  The fuel argument is
instantiated with the list length; every step consumes at least one byte,
so the fuel never runs out on the lists this is called with. -/
def utf8Loop : Nat → List Nat → Option (List Nat)
  | _, [] => some []
  | 0, _ :: _ => none
  | fuel + 1, l =>
    match utf8Char l with
    | none => none
    | some (c, r) => (utf8Loop fuel r).map (fun cs => c :: cs)

/-- Model of Python's strict `bytes.decode` with the default UTF-8 codec:
the decoded string, or `none` standing for a raised UnicodeDecodeError. -/
def pyDecodeUtf8 (bs : List Nat) : Option String :=
  (utf8Loop bs.length bs).map (fun cs => String.mk (cs.map Char.ofNat))

/-- One row of the class-definition table as consumed by `diff.py`.  The
source reads `class_idx`, `superclass_idx` and `class_data_off` by key and
`access` through `dict.get` with default `[]`; whether the external
parser's row carries an `access` key is its own affair, so the field is
optional here.  The remaining columns of a class-definition row
(interfaces, source file, annotation and static-value offsets) are never
consumed by the comparator and are not modelled. -/
structure ClassDef where
  class_idx : Nat
  access : Option (List Nat)
  superclass_idx : Nat
  class_data_off : Nat
  deriving Repr, DecidableEq

/-- One row of the raw method-id table: owning type, prototype, name. -/
structure MethodId where
  class_idx : Nat
  proto_idx : Nat
  name_idx : Nat
  deriving Repr, DecidableEq

/-- One row of the prototype table. -/
structure ProtoId where
  shorty_idx : Nat
  return_type_idx : Nat
  parameters_off : Nat
  deriving Repr, DecidableEq

/-- The four leading counts of a decoded class-data block.  `diff.py` only
takes the lengths of the decoded member lists, so only those lengths are
modelled. -/
structure ClassData where
  static_fields : Nat
  instance_fields : Nat
  direct_methods : Nat
  virtual_methods : Nat
  deriving Repr, DecidableEq

/-- A parsed DEX container as the external DEXParser exposes it to
`diff.py`: the header's magic and endian tag, the index tables, and the
class-definition table.  String-table entries are raw byte lists; all
decoding to text happens inside `diff.py` itself.  `class_data_table`
records, for each nonzero offset at which a class-data block decodes
successfully, the four leading counts of that block. -/
structure ParsedDex where
  magic : List Nat
  endian_tag : Nat
  typeids : List Nat
  strings : List (List Nat)
  protoids : List ProtoId
  methodids : List MethodId
  classdefs : List ClassDef
  class_data_table : List (Nat × ClassData)
  deriving Repr, DecidableEq

/-- Modelled from the spec: `DEXParser.get_class_data`, which lives in the
external dexparser library.  Per spec section 3, a `class_data_off` of
zero means "no class data" and must resolve to empty member counts, not to
a read at offset zero; a nonzero offset yields the block's four leading
uleb128 counts when they decode, and a block that fails to decode raises,
which the caller in `diff.py` catches and turns into `None`.  Both the
raised and the absent case are `none` here. -/
def get_class_data (d : ParsedDex) (off : Nat) : Option ClassData :=
  if off = 0 then none
  else (d.class_data_table.find? (fun p => p.1 == off)).map (fun p => p.2)

/-- The class-name resolution idiom of `diff.py`
(`strings[typeids[idx]].decode("utf-8")`): look the index up in the type
table, fetch the raw string entry, and strictly decode it.  Used for class
names, superclass names and method owner names. -/
def resolveClassName (d : ParsedDex) (idx : Nat) : Except PyError String :=
  match d.typeids.get? idx with
  | none => Except.error PyError.indexError
  | some type_id =>
    match d.strings.get? type_id with
    | none => Except.error PyError.indexError
    | some bytes =>
      match pyDecodeUtf8 bytes with
      | none => Except.error PyError.unicodeDecodeError
      | some s => Except.ok s

/-- Superclass-name resolution of `_extract_class_details`: resolve
`superclass_idx` like a class name when it is within the type table,
otherwise substitute the sentinel "Unknown". -/
def superclassName (d : ParsedDex) (cd : ClassDef) : Except PyError String :=
  if cd.superclass_idx < d.typeids.length then resolveClassName d cd.superclass_idx
  else pure "Unknown"

/-- The derived per-class record built by `_extract_class_details`, one
dictionary per class in the source, with the dictionary's fixed keys as
fields: numeric class index, access flags, superclass name, and the four
member counts. -/
structure ClassModel where
  id : Nat
  access : List Nat
  superclass : String
  static_fields_count : Nat
  instance_fields_count : Nat
  direct_methods_count : Nat
  virtual_methods_count : Nat
  deriving Repr, DecidableEq

/-- One member count of the per-class record:
`len(class_data.get(key, [])) if class_data else 0`, the length of the
decoded member list when there is class data and zero otherwise. -/
def countOr0 (f : ClassData → Nat) (o : Option ClassData) : Nat :=
  match o with
  | some c => f c
  | none => 0

/-- The body of the class-definition loop of `_extract_class_details`:
resolve the class name, fetch the class data (a raised decode error
becomes `none`, mirroring the source's try/except), resolve the
superclass name, and assemble the per-class record, member counts
defaulting to zero when there is no class data. -/
def classDetail (d : ParsedDex) (cd : ClassDef) : Except PyError (String × ClassModel) :=
  match resolveClassName d cd.class_idx with
  | Except.error e => Except.error e
  | Except.ok class_name =>
    let class_data := get_class_data d cd.class_data_off
    match superclassName d cd with
    | Except.error e => Except.error e
    | Except.ok superclass_name =>
      Except.ok (class_name,
        { id := cd.class_idx
          access := cd.access.getD []
          superclass := superclass_name
          static_fields_count := countOr0 ClassData.static_fields class_data
          instance_fields_count := countOr0 ClassData.instance_fields class_data
          direct_methods_count := countOr0 ClassData.direct_methods class_data
          virtual_methods_count := countOr0 ClassData.virtual_methods class_data })

/-- Python dictionary assignment `m[k] = v` over an insertion-ordered
association list: an existing key keeps its position and gets the new
value, a new key is appended. -/
def dictInsert {α : Type} (m : List (String × α)) (k : String) (v : α) :
    List (String × α) :=
  if m.any (fun p => p.1 == k) then
    m.map (fun p => if p.1 == k then (k, v) else p)
  else m ++ [(k, v)]

/-- Python dictionary lookup `m.get(k)`. -/
def dictGet? {α : Type} (m : List (String × α)) (k : String) : Option α :=
  (m.find? (fun p => p.1 == k)).map (fun p => p.2)

/-- Python `m.keys()` in insertion order. -/
def dictKeys {α : Type} (m : List (String × α)) : List String :=
  m.map (fun p => p.1)

/-- The loop of `_extract_class_details` over the class-definition table:
each class's record is assigned into the dictionary under its resolved
name; the first raised exception aborts the whole loop. -/
def extractClassesGo (d : ParsedDex) :
    List (String × ClassModel) → List ClassDef →
    Except PyError (List (String × ClassModel))
  | acc, [] => Except.ok acc
  | acc, cd :: rest =>
    match classDetail d cd with
    | Except.error e => Except.error e
    | Except.ok (nm, model) => extractClassesGo d (dictInsert acc nm model) rest

/-- Translation of `DEXDeepComparator._extract_class_details`. -/
def extract_class_details (d : ParsedDex) :
    Except PyError (List (String × ClassModel)) :=
  extractClassesGo d [] d.classdefs

/-- The per-method record built by `_extract_method_details`: the raw
`class_idx` of the method-id row (stored under the key `id` by the
source), the method name, the shorty signature and the return-type name,
all decoded from string-table entries. -/
structure MethodModel where
  id : Nat
  name : String
  signature : String
  return_type : String
  deriving Repr, DecidableEq

/-- The body of the method-id loop of `_extract_method_details`, in the
source's evaluation order: owner class name (resolved and decoded first),
then the raw lookups of method name, prototype, shorty and return type,
then the strict decodes of name, shorty and return type as the record is
assembled. -/
def methodDetail (d : ParsedDex) (mid : MethodId) : Except PyError (String × MethodModel) :=
  match resolveClassName d mid.class_idx with
  | Except.error e => Except.error e
  | Except.ok class_name =>
    match exceptOfOption (d.strings.get? mid.name_idx) PyError.indexError with
    | Except.error e => Except.error e
    | Except.ok methodNameBytes =>
      match exceptOfOption (d.protoids.get? mid.proto_idx) PyError.indexError with
      | Except.error e => Except.error e
      | Except.ok proto =>
        match exceptOfOption (d.strings.get? proto.shorty_idx) PyError.indexError with
        | Except.error e => Except.error e
        | Except.ok shortyBytes =>
          match exceptOfOption ((d.typeids.get? proto.return_type_idx).bind
              (fun tid => d.strings.get? tid)) PyError.indexError with
          | Except.error e => Except.error e
          | Except.ok returnTypeBytes =>
            match exceptOfOption (pyDecodeUtf8 methodNameBytes) PyError.unicodeDecodeError with
            | Except.error e => Except.error e
            | Except.ok method_name =>
              match exceptOfOption (pyDecodeUtf8 shortyBytes) PyError.unicodeDecodeError with
              | Except.error e => Except.error e
              | Except.ok signature =>
                match exceptOfOption (pyDecodeUtf8 returnTypeBytes) PyError.unicodeDecodeError with
                | Except.error e => Except.error e
                | Except.ok return_type =>
                  Except.ok (class_name,
                    { id := mid.class_idx, name := method_name,
                      signature := signature, return_type := return_type })

/-- Python `m.setdefault(k, []).append(v)`: append to the list under an
existing key, or append a new singleton entry. -/
def addMethod (m : List (String × List MethodModel)) (k : String) (v : MethodModel) :
    List (String × List MethodModel) :=
  if m.any (fun p => p.1 == k) then
    m.map (fun p => if p.1 == k then (p.1, p.2 ++ [v]) else p)
  else m ++ [(k, [v])]

/-- The loop of `_extract_method_details` over the method-id table. -/
def extractMethodsGo (d : ParsedDex) :
    List (String × List MethodModel) → List MethodId →
    Except PyError (List (String × List MethodModel))
  | acc, [] => Except.ok acc
  | acc, mid :: rest =>
    match methodDetail d mid with
    | Except.error e => Except.error e
    | Except.ok (nm, mm) => extractMethodsGo d (addMethod acc nm mm) rest

/-- Translation of `DEXDeepComparator._extract_method_details`. -/
def extract_method_details (d : ParsedDex) :
    Except PyError (List (String × List MethodModel)) :=
  extractMethodsGo d [] d.methodids

/-- A value of one field of the per-class dictionary, as compared by
`_compare_classes`: a count or index, a name, or an access-flag list. -/
inductive FieldVal where
  | nat (n : Nat)
  | str (s : String)
  | flags (l : List Nat)
  deriving Repr, DecidableEq

/-- The items of the per-class dictionary in its insertion order, each key
with its value; this is what `class1_details.items()` iterates. -/
def ClassModel.fields (c : ClassModel) : List (String × FieldVal) :=
  [("id", FieldVal.nat c.id),
   ("access", FieldVal.flags c.access),
   ("superclass", FieldVal.str c.superclass),
   ("static_fields_count", FieldVal.nat c.static_fields_count),
   ("instance_fields_count", FieldVal.nat c.instance_fields_count),
   ("direct_methods_count", FieldVal.nat c.direct_methods_count),
   ("virtual_methods_count", FieldVal.nat c.virtual_methods_count)]

/-- The inner loop of `_compare_classes` over one common class: walk the
items of the first record, look the same key up in the second (both
records carry the same fixed keys), and keep each mismatching key with the
two values. -/
def classFieldDiffs (c1 c2 : ClassModel) : List (String × FieldVal × FieldVal) :=
  (c1.fields.zip c2.fields).filterMap
    (fun p => if p.1.2 = p.2.2 then none else some (p.1.1, p.1.2, p.2.2))

/-- The class-level part of the report.  The source materializes the two
unique-name collections through Python sets, whose iteration order is not
part of any contract; here they are lists in first-occurrence order, which
is faithful to their membership but fixes an order the source does not
promise. -/
structure ClassComparison where
  unique_to_dex1 : List String
  unique_to_dex2 : List String
  common_classes_with_differences : List (String × List (String × FieldVal × FieldVal))
  deriving Repr, DecidableEq

/-- The entry the common-class loop of `_compare_classes` contributes for
one name: the mismatching fields of the two records, or nothing when every
field agrees. -/
def commonClassEntry (classes1 classes2 : List (String × ClassModel)) (k : String) :
    Option (String × List (String × FieldVal × FieldVal)) :=
  match dictGet? classes1 k, dictGet? classes2 k with
  | some c1, some c2 =>
    let diffs := classFieldDiffs c1 c2
    if diffs.isEmpty then none else some (k, diffs)
  | _, _ => none

/-- Translation of `DEXDeepComparator._compare_classes`: names on one side
only, and, for every common name, the mismatching fields of the two
records; a class with no mismatching field is left out of the map. -/
def compare_classes (classes1 classes2 : List (String × ClassModel)) : ClassComparison :=
  { unique_to_dex1 :=
      (dictKeys classes1).filter (fun k => !(dictKeys classes2).contains k)
    unique_to_dex2 :=
      (dictKeys classes2).filter (fun k => !(dictKeys classes1).contains k)
    common_classes_with_differences :=
      ((dictKeys classes1).filter (fun k => (dictKeys classes2).contains k)).filterMap
        (commonClassEntry classes1 classes2) }

/-- The identity key `_compare_methods` builds for a method:
`(name, signature, return_type)`. -/
def method_key (m : MethodModel) : String × String × String :=
  (m.name, m.signature, m.return_type)

/-- The `(signature, return_type)` pair of a method. -/
def sigOf (m : MethodModel) : String × String := (m.signature, m.return_type)

/-- All `(signature, return_type)` pairs of a method list; membership in
this list is membership in the source's per-name signature set. -/
def sigTable (ms : List MethodModel) : List (String × String) := ms.map sigOf

/-- Membership in the symmetric difference
`dex1_signatures ^ dex2_signatures` of the two signature sets. -/
def divergentSig (sigs1 sigs2 : List (String × String)) (s : String × String) : Bool :=
  sigs1.contains s != sigs2.contains s

/-- One emitted signature-difference entry
`{method_name, dex1: method1, dex2: method2}`. -/
structure SigDiffEntry where
  method_name : String
  dex1 : MethodModel
  dex2 : MethodModel
  deriving Repr, DecidableEq

/-- The emission loop of `_compare_methods` for one method name common to
both sides: every first-side method whose signature pair lies in the
symmetric difference is crossed with every second-side method whose
signature pair lies in the symmetric difference. -/
def sigDiffsFor (name : String) (g1 g2 : List MethodModel) : List SigDiffEntry :=
  (g1.filter (fun m => divergentSig (sigTable g1) (sigTable g2) (sigOf m))).flatMap
    (fun m1 =>
      (g2.filter (fun m => divergentSig (sigTable g1) (sigTable g2) (sigOf m))).map
        (fun m2 => { method_name := name, dex1 := m1, dex2 := m2 }))

/-- The per-class record of method differences. -/
structure ClassMethodComparison where
  unique_methods_to_dex1 : List MethodModel
  unique_methods_to_dex2 : List MethodModel
  method_signature_differences : List SigDiffEntry
  deriving Repr, DecidableEq

/-- Method names of a list in first-occurrence order, without repeats:
the keys of the source's `methods_by_name` grouping. -/
def methodNamesOf (ms : List MethodModel) : List String :=
  (ms.map (fun m => m.name)).dedup

/-- The methods grouped under one name: `methods_by_name[n]`. -/
def methodsNamed (ms : List MethodModel) (n : String) : List MethodModel :=
  ms.filter (fun m => m.name == n)

/-- The body of the common-class loop of `_compare_methods`: methods whose
identity key is missing from the other side, and the signature-difference
entries of every method name present on both sides. -/
def compareMethodsForClass (g1 g2 : List MethodModel) : ClassMethodComparison :=
  { unique_methods_to_dex1 :=
      g1.filter (fun m => !(g2.map method_key).contains (method_key m))
    unique_methods_to_dex2 :=
      g2.filter (fun m => !(g1.map method_key).contains (method_key m))
    method_signature_differences :=
      ((methodNamesOf g1).filter (fun n => (methodNamesOf g2).contains n)).flatMap
        (fun n => sigDiffsFor n (methodsNamed g1 n) (methodsNamed g2 n)) }

/-- Truthiness test `any(class_method_comparison.values())` of the source:
at least one of the three lists is nonempty. -/
def hasAnyDifference (c : ClassMethodComparison) : Bool :=
  !c.unique_methods_to_dex1.isEmpty || !c.unique_methods_to_dex2.isEmpty ||
    !c.method_signature_differences.isEmpty

/-- The method-level part of the report; the same order caveat as for
`ClassComparison` applies to the unique-class lists. -/
structure MethodComparison where
  unique_classes_to_dex1 : List String
  unique_classes_to_dex2 : List String
  common_classes_with_method_differences : List (String × ClassMethodComparison)
  deriving Repr, DecidableEq

/-- The entry the common-class loop of `_compare_methods` contributes for
one class name: the per-class comparison, kept only when at least one of
its three lists is nonempty. -/
def commonMethodEntry (methods1 methods2 : List (String × List MethodModel)) (k : String) :
    Option (String × ClassMethodComparison) :=
  match dictGet? methods1 k, dictGet? methods2 k with
  | some g1, some g2 =>
    let c := compareMethodsForClass g1 g2
    if hasAnyDifference c then some (k, c) else none
  | _, _ => none

/-- Translation of `DEXDeepComparator._compare_methods`. -/
def compare_methods (methods1 methods2 : List (String × List MethodModel)) :
    MethodComparison :=
  { unique_classes_to_dex1 :=
      (dictKeys methods1).filter (fun k => !(dictKeys methods2).contains k)
    unique_classes_to_dex2 :=
      (dictKeys methods2).filter (fun k => !(dictKeys methods1).contains k)
    common_classes_with_method_differences :=
      ((dictKeys methods1).filter (fun k => (dictKeys methods2).contains k)).filterMap
        (commonMethodEntry methods1 methods2) }

/-- The full report returned by `compare_dex_files`. -/
structure DiffReport where
  classes : ClassComparison
  methods : MethodComparison
  deriving Repr, DecidableEq

/-- Translation of `DEXDeepComparator.compare_dex_files`, in the source's
evaluation order: class models of both sides, then method models of both
sides, the first raised extraction error propagating. -/
def compare_dex_files (d1 d2 : ParsedDex) : Except PyError DiffReport :=
  match extract_class_details d1 with
  | Except.error e => Except.error e
  | Except.ok classes1 =>
    match extract_class_details d2 with
    | Except.error e => Except.error e
    | Except.ok classes2 =>
      match extract_method_details d1 with
      | Except.error e => Except.error e
      | Except.ok methods1 =>
        match extract_method_details d2 with
        | Except.error e => Except.error e
        | Except.ok methods2 =>
          Except.ok { classes := compare_classes classes1 classes2
                      methods := compare_methods methods1 methods2 }

/-- The byte at an offset of a buffer, zero when out of range; every read
below is covered by the bounds validation the parser performs first. -/
def byteAt (b : List Nat) (i : Nat) : Nat := (b.get? i).getD 0

/-- A little-endian 16-bit read. -/
def read16 (b : List Nat) (i : Nat) : Nat :=
  byteAt b i + 0x100 * byteAt b (i + 1)

/-- A little-endian 32-bit read. -/
def read32 (b : List Nat) (i : Nat) : Nat :=
  byteAt b i + 0x100 * byteAt b (i + 1) + 0x10000 * byteAt b (i + 2) +
    0x1000000 * byteAt b (i + 3)

/-- Read an unsigned LEB128 integer at an offset: the value and the offset
past it, or `none` when the buffer ends or the encoding exceeds five
bytes.  Structured as fuel recursion with fuel five, the longest
admissible encoding. -/
def readUlebAux (b : List Nat) : Nat → Nat → Nat → Nat → Option (Nat × Nat)
  | 0, _, _, _ => none
  | fuel + 1, off, shift, acc =>
    match b.get? off with
    | none => none
    | some byte =>
      let acc2 := acc + byte % 0x80 * 2 ^ shift
      if byte < 0x80 then some (acc2, off + 1)
      else readUlebAux b fuel (off + 1) (shift + 7) acc2

/-- Read an unsigned LEB128 integer at an offset of the buffer. -/
def readUleb128 (b : List Nat) (off : Nat) : Option (Nat × Nat) :=
  readUlebAux b 5 off 0 0

/-- Modelled from the spec: the four leading uleb128 counts of a
class-data block (spec section 3, ClassDataItem); only the counts are
needed, not the per-member decode.  `none` stands for a block that fails
to decode. -/
def decodeClassData (b : List Nat) (off : Nat) : Option ClassData := do
  let (sf, o1) ← readUleb128 b off
  let (insf, o2) ← readUleb128 b o1
  let (dm, o3) ← readUleb128 b o2
  let (vm, _) ← readUleb128 b o3
  pure { static_fields := sf, instance_fields := insf,
         direct_methods := dm, virtual_methods := vm }

/-- Modelled from the spec: the raw bytes of one string-table entry
(spec section 3, StringTable): a uleb128 length in UTF-16 code units,
then MUTF-8 bytes up to a NUL terminator.  The raw bytes are returned
undecoded, which is how the external parser hands strings to `diff.py`. -/
def readStringData (b : List Nat) (off : Nat) : List Nat :=
  match readUleb128 b off with
  | none => []
  | some (_, o) => (b.drop o).takeWhile (fun x => x != 0)

/-- The first four bytes of a valid magic: "dex" then a newline. -/
def dexMagic4 : List Nat := [0x64, 0x65, 0x78, 0x0A]

/-- An ASCII decimal digit byte. -/
def isAsciiDigit (b : Nat) : Bool := 0x30 ≤ b && b ≤ 0x39

/-- Modelled from the spec: the Dex Container Parser (spec sections 4.1
and 7), which the source delegates to the external dexparser library.
Validation comes first and in full before any index table is
materialized: minimum header size, the magic ("dex" and a newline, three
ASCII digits, a NUL), the endian tag (0x12345678 or its byte-swapped
form), the declared header size, and every (count, offset) pair of the
six index tables against the buffer length.  Only then are the tables
read; the columns the comparator never consumes are skipped. -/
def parseDex (b : List Nat) : Except FormatError ParsedDex :=
  if b.length < 112 then Except.error FormatError.headerTooShort
  else if b.take 4 ≠ dexMagic4 then Except.error FormatError.magicMismatch
  else if !(isAsciiDigit (byteAt b 4) && isAsciiDigit (byteAt b 5) &&
            isAsciiDigit (byteAt b 6)) || byteAt b 7 ≠ 0 then
    Except.error FormatError.magicMismatch
  else if read32 b 40 ≠ 0x12345678 ∧ read32 b 40 ≠ 0x78563412 then
    Except.error FormatError.invalidEndianTag
  else if read32 b 36 ≠ 0x70 then Except.error FormatError.invalidHeaderSize
  else
    let strCount := read32 b 56
    let strOff := read32 b 60
    let typeCount := read32 b 64
    let typeOff := read32 b 68
    let protoCount := read32 b 72
    let protoOff := read32 b 76
    let fieldCount := read32 b 80
    let fieldOff := read32 b 84
    let methodCount := read32 b 88
    let methodOff := read32 b 92
    let classCount := read32 b 96
    let classOff := read32 b 100
    if strOff + 4 * strCount > b.length ∨ typeOff + 4 * typeCount > b.length ∨
       protoOff + 12 * protoCount > b.length ∨ fieldOff + 8 * fieldCount > b.length ∨
       methodOff + 8 * methodCount > b.length ∨ classOff + 32 * classCount > b.length then
      Except.error FormatError.tableOverrun
    else
      let classdefs := (List.range classCount).map (fun i =>
        { class_idx := read32 b (classOff + 32 * i)
          access := none
          superclass_idx := read32 b (classOff + 32 * i + 8)
          class_data_off := read32 b (classOff + 32 * i + 24) : ClassDef })
      Except.ok
        { magic := b.take 8
          endian_tag := read32 b 40
          typeids := (List.range typeCount).map (fun i => read32 b (typeOff + 4 * i))
          strings := (List.range strCount).map (fun i =>
            readStringData b (read32 b (strOff + 4 * i)))
          protoids := (List.range protoCount).map (fun i =>
            { shorty_idx := read32 b (protoOff + 12 * i)
              return_type_idx := read32 b (protoOff + 12 * i + 4)
              parameters_off := read32 b (protoOff + 12 * i + 8) })
          methodids := (List.range methodCount).map (fun i =>
            { class_idx := read16 b (methodOff + 8 * i)
              proto_idx := read16 b (methodOff + 8 * i + 2)
              name_idx := read32 b (methodOff + 8 * i + 4) })
          classdefs := classdefs
          class_data_table := classdefs.filterMap (fun cd =>
            if cd.class_data_off = 0 then none
            else (decodeClassData b cd.class_data_off).map
              (fun cdata => (cd.class_data_off, cdata))) }

/-- Model of Python `int()` applied to the ASCII bytes the source slices
out of the magic: the decimal value when the bytes are a nonempty digit
string, `none` standing for a raised ValueError.  (The surrounding
whitespace and sign forms `int()` also accepts cannot arise from the
three-byte slice of a validated magic and are not modelled.) -/
def pyIntOfDigits (bs : List Nat) : Option Nat :=
  if bs.isEmpty || !(bs.all isAsciiDigit) then none
  else some (bs.foldl (fun acc b => acc * 10 + (b - 0x30)) 0)

/-- Translation of `DEXDeepComparator._dex_to_version`:
`int(magic.removeprefix(b"dex\n")[:3])` over the parsed header's magic. -/
def dex_to_version (d : ParsedDex) : Option Nat :=
  let rest := if d.magic.take 4 = dexMagic4 then d.magic.drop 4 else d.magic
  pyIntOfDigits (rest.take 3)

/-- An error escaping `DEXDeepComparator.__init__`: a fatal container
format error from parsing one side, or the ValueError `int()` raises in
`_dex_to_version` on a malformed magic. -/
inductive InitError where
  | format (e : FormatError)
  | valueError
  deriving Repr, DecidableEq

/-- Translation of `DEXDeepComparator.__init__` over the spec-modelled
parser: parse the first buffer, then the second, then compute the two
versions the constructor prints; the first failure aborts construction,
tagged with the side it came from. -/
def comparatorInit (dex_file1 dex_file2 : List Nat) :
    Except (Side × InitError) (ParsedDex × ParsedDex) :=
  match parseDex dex_file1 with
  | Except.error e => Except.error (Side.dex1, InitError.format e)
  | Except.ok d1 =>
    match parseDex dex_file2 with
    | Except.error e => Except.error (Side.dex2, InitError.format e)
    | Except.ok d2 =>
      match dex_to_version d1 with
      | none => Except.error (Side.dex1, InitError.valueError)
      | some _ =>
        match dex_to_version d2 with
        | none => Except.error (Side.dex2, InitError.valueError)
        | some _ => Except.ok (d1, d2)

/-! Helper lemmas about the list and dictionary plumbing. -/

theorem filter_not_contains_self (l : List String) :
    l.filter (fun k => !l.contains k) = [] := by
  rw [List.filter_eq_nil_iff]
  intro a ha
  simp [List.contains, ha]

theorem filter_not_contains_key_self (g : List MethodModel) :
    g.filter (fun m => !(g.map method_key).contains (method_key m)) = [] := by
  rw [List.filter_eq_nil_iff]
  intro m hm
  have h2 : method_key m ∈ g.map method_key := List.mem_map_of_mem method_key hm
  simp [List.contains, h2]

theorem classFieldDiffs_self (c : ClassModel) : classFieldDiffs c c = [] := by
  simp [classFieldDiffs, ClassModel.fields]

theorem divergentSig_self (s : List (String × String)) (x : String × String) :
    divergentSig s s x = false := by
  simp [divergentSig]

theorem sigDiffsFor_self (n : String) (g : List MethodModel) :
    sigDiffsFor n g g = [] := by
  simp [sigDiffsFor, divergentSig_self]

theorem compareMethodsForClass_self (g : List MethodModel) :
    compareMethodsForClass g g =
      { unique_methods_to_dex1 := [], unique_methods_to_dex2 := [],
        method_signature_differences := [] } := by
  have h3 : ((methodNamesOf g).filter (fun n => (methodNamesOf g).contains n)).flatMap
      (fun n => sigDiffsFor n (methodsNamed g n) (methodsNamed g n)) = [] := by
    rw [List.eq_nil_iff_forall_not_mem]
    intro e he
    rw [List.mem_flatMap] at he
    obtain ⟨n, _, hn⟩ := he
    rw [sigDiffsFor_self] at hn
    exact absurd hn (List.not_mem_nil e)
  unfold compareMethodsForClass
  rw [filter_not_contains_key_self, h3]

theorem commonClassEntry_self (c : List (String × ClassModel)) (k : String) :
    commonClassEntry c c k = none := by
  unfold commonClassEntry
  cases hx : dictGet? c k <;> simp [classFieldDiffs_self]

theorem compare_classes_self (c : List (String × ClassModel)) :
    compare_classes c c =
      { unique_to_dex1 := [], unique_to_dex2 := [],
        common_classes_with_differences := [] } := by
  have h3 : ((dictKeys c).filter (fun k => (dictKeys c).contains k)).filterMap
      (commonClassEntry c c) = [] :=
    List.filterMap_eq_nil_iff.mpr (fun k _ => commonClassEntry_self c k)
  unfold compare_classes
  rw [filter_not_contains_self, h3]

theorem commonMethodEntry_self (m : List (String × List MethodModel)) (k : String) :
    commonMethodEntry m m k = none := by
  unfold commonMethodEntry
  cases hx : dictGet? m k <;>
    simp [compareMethodsForClass_self, hasAnyDifference]

theorem compare_methods_self (m : List (String × List MethodModel)) :
    compare_methods m m =
      { unique_classes_to_dex1 := [], unique_classes_to_dex2 := [],
        common_classes_with_method_differences := [] } := by
  have h3 : ((dictKeys m).filter (fun k => (dictKeys m).contains k)).filterMap
      (commonMethodEntry m m) = [] :=
    List.filterMap_eq_nil_iff.mpr (fun k _ => commonMethodEntry_self m k)
  unfold compare_methods
  rw [filter_not_contains_self, h3]

/-- C1: for a well-formed container (one whose class and method models
extract without a raised exception), comparing the container against
itself — the two sides being the results of two runs of the same
deterministic parse-and-extract pipeline on the same buffer — yields an
empty diff report: empty unique_to_dex1 and unique_to_dex2, empty
common_classes_with_differences, empty unique_classes_to_dex1 and
unique_classes_to_dex2, and empty
common_classes_with_method_differences. -/
theorem c1_self_comparison_empty (d : ParsedDex) (r : DiffReport)
    (h : compare_dex_files d d = Except.ok r) :
    r.classes.unique_to_dex1 = [] ∧ r.classes.unique_to_dex2 = [] ∧
    r.classes.common_classes_with_differences = [] ∧
    r.methods.unique_classes_to_dex1 = [] ∧
    r.methods.unique_classes_to_dex2 = [] ∧
    r.methods.common_classes_with_method_differences = [] := by
  unfold compare_dex_files at h
  cases hc : extract_class_details d with
  | error e => rw [hc] at h; exact absurd h (by simp)
  | ok c =>
    cases hm : extract_method_details d with
    | error e => rw [hc, hm] at h; exact absurd h (by simp)
    | ok m =>
      rw [hc, hm] at h
      simp only [Except.ok.injEq] at h
      rw [← h, compare_classes_self, compare_methods_self]
      exact ⟨rfl, rfl, rfl, rfl, rfl, rfl⟩

/-- A small concrete container: two strings "a" and "b", two types, one
prototype, one method, one class whose superclass index is out of range
and which has no class data. -/
def exDex : ParsedDex :=
  { magic := [0x64, 0x65, 0x78, 0x0A, 0x30, 0x33, 0x35, 0]
    endian_tag := 0x12345678
    typeids := [0, 1]
    strings := [[97], [98]]
    protoids := [⟨0, 1, 0⟩]
    methodids := [⟨0, 0, 1⟩]
    classdefs := [⟨0, none, 5, 0⟩]
    class_data_table := [] }

/-- The empty report. -/
def emptyReport : DiffReport :=
  { classes := { unique_to_dex1 := [], unique_to_dex2 := [],
                 common_classes_with_differences := [] }
    methods := { unique_classes_to_dex1 := [], unique_classes_to_dex2 := [],
                 common_classes_with_method_differences := [] } }

theorem c1_self_comparison_empty_witness :
    compare_dex_files exDex exDex = Except.ok emptyReport ∧
    (emptyReport.classes.unique_to_dex1 = [] ∧
     emptyReport.classes.unique_to_dex2 = [] ∧
     emptyReport.classes.common_classes_with_differences = [] ∧
     emptyReport.methods.unique_classes_to_dex1 = [] ∧
     emptyReport.methods.unique_classes_to_dex2 = [] ∧
     emptyReport.methods.common_classes_with_method_differences = []) :=
  ⟨by rfl, c1_self_comparison_empty exDex emptyReport (by rfl)⟩

theorem extractClassesGo_ok_iff (d : ParsedDex) :
    ∀ (l : List ClassDef) (acc : List (String × ClassModel)),
      (∃ m, extractClassesGo d acc l = Except.ok m) ↔
        ∀ cd ∈ l, ∃ r, classDetail d cd = Except.ok r := by
  intro l
  induction l with
  | nil =>
    intro acc
    simp [extractClassesGo]
  | cons cd rest ih =>
    intro acc
    constructor
    · rintro ⟨m, hm⟩ cd2 hcd2
      unfold extractClassesGo at hm
      cases hcd : classDetail d cd with
      | error e => rw [hcd] at hm; exact absurd hm (by simp)
      | ok r =>
        obtain ⟨nm, model⟩ := r
        rw [hcd] at hm
        rw [List.mem_cons] at hcd2
        cases hcd2 with
        | inl heq => subst heq; exact ⟨(nm, model), hcd⟩
        | inr hmem => exact (ih (dictInsert acc nm model)).mp ⟨m, hm⟩ cd2 hmem
    · intro hall
      obtain ⟨r, hr⟩ := hall cd (List.mem_cons_self cd rest)
      obtain ⟨nm, model⟩ := r
      obtain ⟨m, hm⟩ := (ih (dictInsert acc nm model)).mpr
        (fun cd2 h2 => hall cd2 (List.mem_cons_of_mem cd h2))
      refine ⟨m, ?_⟩
      unfold extractClassesGo
      rw [hr]
      exact hm

/-- C5: a class definition whose superclass index is at or beyond the end
of the type table is recorded with the sentinel superclass "Unknown"
(member counts and the other fields unaffected), its own extraction does
not raise, and the extraction of the whole class-definition table
succeeds whenever every class's row resolves — the out-of-range
superclass index alone never aborts it. -/
theorem c5_superclass_oob_unknown (d : ParsedDex) (cd : ClassDef) (nm : String)
    (h1 : resolveClassName d cd.class_idx = Except.ok nm)
    (h2 : d.typeids.length ≤ cd.superclass_idx) :
    classDetail d cd = Except.ok (nm,
      { id := cd.class_idx
        access := cd.access.getD []
        superclass := "Unknown"
        static_fields_count :=
          countOr0 ClassData.static_fields (get_class_data d cd.class_data_off)
        instance_fields_count :=
          countOr0 ClassData.instance_fields (get_class_data d cd.class_data_off)
        direct_methods_count :=
          countOr0 ClassData.direct_methods (get_class_data d cd.class_data_off)
        virtual_methods_count :=
          countOr0 ClassData.virtual_methods (get_class_data d cd.class_data_off) }) ∧
    ((∀ cd2 ∈ d.classdefs, ∃ r, classDetail d cd2 = Except.ok r) →
      ∃ m, extract_class_details d = Except.ok m) := by
  constructor
  · have hs : superclassName d cd = Except.ok "Unknown" := by
      unfold superclassName
      rw [if_neg (by omega)]
      rfl
    unfold classDetail
    rw [h1, hs]
  · intro hall
    exact (extractClassesGo_ok_iff d d.classdefs []).mpr hall

theorem c5_superclass_oob_unknown_witness :
    classDetail exDex ⟨0, none, 5, 0⟩ =
      Except.ok ("a", ⟨0, [], "Unknown", 0, 0, 0, 0⟩) ∧
    (∃ m, extract_class_details exDex = Except.ok m) :=
  ⟨(c5_superclass_oob_unknown exDex ⟨0, none, 5, 0⟩ "a" (by rfl) (by decide)).1,
   (c5_superclass_oob_unknown exDex ⟨0, none, 5, 0⟩ "a" (by rfl) (by decide)).2
     (by
       intro cd2 h2
       rw [show exDex.classdefs = [⟨0, none, 5, 0⟩] from rfl, List.mem_singleton] at h2
       subst h2
       exact ⟨("a", ⟨0, [], "Unknown", 0, 0, 0, 0⟩), by rfl⟩)⟩

/-- C6: a class definition whose class_data_off is zero resolves to a
record with all four member counts zero — the class-data fetch yields
nothing rather than an error or a read at offset zero of the buffer. -/
theorem c6_class_data_off_zero_counts (d : ParsedDex) (cd : ClassDef) (nm s : String)
    (h1 : resolveClassName d cd.class_idx = Except.ok nm)
    (hs : superclassName d cd = Except.ok s)
    (h0 : cd.class_data_off = 0) :
    get_class_data d cd.class_data_off = none ∧
    classDetail d cd = Except.ok (nm,
      { id := cd.class_idx, access := cd.access.getD [], superclass := s,
        static_fields_count := 0, instance_fields_count := 0,
        direct_methods_count := 0, virtual_methods_count := 0 }) := by
  have hg : get_class_data d cd.class_data_off = none := by
    unfold get_class_data
    rw [if_pos h0]
  refine ⟨hg, ?_⟩
  unfold classDetail
  rw [h1, hs, hg]
  rfl

/-- A second concrete container: one class whose superclass resolves in
range and whose class_data_off is zero; the class-data table does hold a
block at offset 10, which must not be consulted. -/
def exDexB : ParsedDex :=
  { magic := [0x64, 0x65, 0x78, 0x0A, 0x30, 0x33, 0x35, 0]
    endian_tag := 0x12345678
    typeids := [0, 1]
    strings := [[97], [98]]
    protoids := []
    methodids := []
    classdefs := [⟨0, some [1], 1, 0⟩]
    class_data_table := [(10, ⟨7, 8, 9, 1⟩)] }

theorem c6_class_data_off_zero_counts_witness :
    get_class_data exDexB 0 = none ∧
    classDetail exDexB ⟨0, some [1], 1, 0⟩ =
      Except.ok ("a", ⟨0, [1], "b", 0, 0, 0, 0⟩) :=
  c6_class_data_off_zero_counts exDexB ⟨0, some [1], 1, 0⟩ "a" "b"
    (by rfl) (by rfl) (by rfl)

/-- C7: a class whose class-data block fails to decode (the fetch raises
and the source's try/except turns it into nothing) is recorded with all
four member counts zero, and the extraction of the whole table succeeds
whenever every class's row resolves — one corrupt class-data entry never
aborts the batch. -/
theorem c7_class_data_decode_failure_zero_counts (d : ParsedDex) (cd : ClassDef)
    (nm s : String)
    (h1 : resolveClassName d cd.class_idx = Except.ok nm)
    (hs : superclassName d cd = Except.ok s)
    (hfail : get_class_data d cd.class_data_off = none) :
    classDetail d cd = Except.ok (nm,
      { id := cd.class_idx, access := cd.access.getD [], superclass := s,
        static_fields_count := 0, instance_fields_count := 0,
        direct_methods_count := 0, virtual_methods_count := 0 }) ∧
    ((∀ cd2 ∈ d.classdefs, ∃ r, classDetail d cd2 = Except.ok r) →
      ∃ m, extract_class_details d = Except.ok m) := by
  constructor
  · unfold classDetail
    rw [h1, hs, hfail]
    rfl
  · intro hall
    exact (extractClassesGo_ok_iff d d.classdefs []).mpr hall

/-- A third concrete container: one class whose class_data_off points at
offset 7, where no class-data block decodes. -/
def exDexC : ParsedDex :=
  { magic := [0x64, 0x65, 0x78, 0x0A, 0x30, 0x33, 0x35, 0]
    endian_tag := 0x12345678
    typeids := [0, 1]
    strings := [[97], [98]]
    protoids := []
    methodids := []
    classdefs := [⟨0, none, 1, 7⟩]
    class_data_table := [] }

theorem c7_class_data_decode_failure_zero_counts_witness :
    classDetail exDexC ⟨0, none, 1, 7⟩ =
      Except.ok ("a", ⟨0, [], "b", 0, 0, 0, 0⟩) ∧
    (∃ m, extract_class_details exDexC = Except.ok m) :=
  ⟨(c7_class_data_decode_failure_zero_counts exDexC ⟨0, none, 1, 7⟩ "a" "b"
      (by rfl) (by rfl) (by rfl)).1,
   (c7_class_data_decode_failure_zero_counts exDexC ⟨0, none, 1, 7⟩ "a" "b"
      (by rfl) (by rfl) (by rfl)).2
     (by
       intro cd2 h2
       rw [show exDexC.classdefs = [⟨0, none, 1, 7⟩] from rfl, List.mem_singleton] at h2
       subst h2
       exact ⟨("a", ⟨0, [], "b", 0, 0, 0, 0⟩), by rfl⟩)⟩

/-- A container whose first class's name string is the lone byte 0xFF,
which no strict UTF-8 decode accepts; the second class's name decodes
fine. -/
def exDexD : ParsedDex :=
  { magic := [0x64, 0x65, 0x78, 0x0A, 0x30, 0x33, 0x35, 0]
    endian_tag := 0x12345678
    typeids := [0, 1]
    strings := [[0xFF], [98]]
    protoids := []
    methodids := []
    classdefs := [⟨0, none, 0, 0⟩, ⟨1, none, 0, 0⟩]
    class_data_table := [] }

/-- C8 counterexample: the claim says a failed string decode degrades to a
sentinel for that entry only and extraction of the other entries
continues.  On this container the first class's name bytes fail to
decode, and class extraction returns a raised UnicodeDecodeError — no
mapping at all is produced, the decodable second class included, so the
claim is false as stated. -/
theorem c8_counterexample_decode_failure_aborts :
    pyDecodeUtf8 [0xFF] = none ∧
    extract_class_details exDexD = Except.error PyError.unicodeDecodeError ∧
    ∀ m, extract_class_details exDexD ≠ Except.ok m := by
  refine ⟨by rfl, by rfl, ?_⟩
  intro m hm
  rw [show extract_class_details exDexD = Except.error PyError.unicodeDecodeError
    from rfl] at hm
  exact Except.noConfusion hm

/-- C8 amended: a string-table entry whose bytes fail to decode is not
local to that entry when the entry is resolved during class extraction:
the resolution raises UnicodeDecodeError (no sentinel is substituted) and
the raised error aborts the whole extraction, so no class mapping is
produced for any entry. -/
theorem c8_decode_failure_aborts_amended (d : ParsedDex) (cd : ClassDef) (tid : Nat)
    (bytes : List Nat)
    (hmem : cd ∈ d.classdefs)
    (ht : d.typeids.get? cd.class_idx = some tid)
    (hb : d.strings.get? tid = some bytes)
    (hdec : pyDecodeUtf8 bytes = none) :
    resolveClassName d cd.class_idx = Except.error PyError.unicodeDecodeError ∧
    ∀ m, extract_class_details d ≠ Except.ok m := by
  have hres : resolveClassName d cd.class_idx = Except.error PyError.unicodeDecodeError := by
    unfold resolveClassName
    simp only [ht, hb, hdec]
  refine ⟨hres, ?_⟩
  intro m hm
  obtain ⟨r, hr⟩ := (extractClassesGo_ok_iff d d.classdefs []).mp ⟨m, hm⟩ cd hmem
  unfold classDetail at hr
  rw [hres] at hr
  exact Except.noConfusion hr

theorem c8_decode_failure_aborts_amended_witness :
    resolveClassName exDexD 0 = Except.error PyError.unicodeDecodeError ∧
    ∀ m, extract_class_details exDexD ≠ Except.ok m :=
  c8_decode_failure_aborts_amended exDexD ⟨0, none, 0, 0⟩ 0 [0xFF]
    (by decide) (by rfl) (by rfl) (by rfl)

/-- C10: a buffer whose first four bytes are not "dex" plus newline is
rejected while constructing the comparator: the constructor result is a
FormatError tagged with the failing side, whichever side the bad buffer
is, and no comparator is produced.  (In the spec-modelled parser the
magic test precedes every table read, so the rejection happens before any
index table is touched.) -/
theorem c10_bad_magic_rejected (b1 b2 : List Nat) :
    (b1.take 4 ≠ dexMagic4 →
      ∃ e, comparatorInit b1 b2 = Except.error (Side.dex1, InitError.format e)) ∧
    (∀ d1, parseDex b1 = Except.ok d1 → b2.take 4 ≠ dexMagic4 →
      ∃ e, comparatorInit b1 b2 = Except.error (Side.dex2, InitError.format e)) := by
  have hp : ∀ b : List Nat, b.take 4 ≠ dexMagic4 → ∃ e, parseDex b = Except.error e := by
    intro b hb
    unfold parseDex
    by_cases hl : b.length < 112
    · rw [if_pos hl]
      exact ⟨FormatError.headerTooShort, rfl⟩
    · rw [if_neg hl, if_pos hb]
      exact ⟨FormatError.magicMismatch, rfl⟩
  constructor
  · intro h1
    obtain ⟨e, hpe⟩ := hp b1 h1
    refine ⟨e, ?_⟩
    unfold comparatorInit
    rw [hpe]
  · intro d1 h1 h2
    obtain ⟨e, hpe⟩ := hp b2 h2
    refine ⟨e, ?_⟩
    unfold comparatorInit
    rw [h1, hpe]

/-- A minimal byte buffer the spec-modelled parser accepts: a valid
112-byte header with version 035, little-endian tag, header size 0x70 and
all six table counts and offsets zero. -/
def exValidBuf : List Nat :=
  [0x64, 0x65, 0x78, 0x0A, 0x30, 0x33, 0x35, 0] ++ List.replicate 28 0 ++
    [0x70, 0, 0, 0] ++ [0x78, 0x56, 0x34, 0x12] ++ List.replicate 68 0

/-- The container `exValidBuf` parses to: all tables empty. -/
def exEmptyDex : ParsedDex :=
  { magic := [0x64, 0x65, 0x78, 0x0A, 0x30, 0x33, 0x35, 0]
    endian_tag := 0x12345678
    typeids := []
    strings := []
    protoids := []
    methodids := []
    classdefs := []
    class_data_table := [] }

theorem c10_bad_magic_rejected_witness :
    (List.take 4 [0, 0, 0, 0] ≠ dexMagic4) ∧
    (∃ e, comparatorInit [0, 0, 0, 0] exValidBuf =
      Except.error (Side.dex1, InitError.format e)) ∧
    parseDex exValidBuf = Except.ok exEmptyDex ∧
    (∃ e, comparatorInit exValidBuf [0, 0, 0, 0] =
      Except.error (Side.dex2, InitError.format e)) :=
  ⟨by decide,
   (c10_bad_magic_rejected [0, 0, 0, 0] exValidBuf).1 (by decide),
   by rfl,
   (c10_bad_magic_rejected exValidBuf [0, 0, 0, 0]).2 exEmptyDex (by rfl) (by decide)⟩

theorem mem_classFieldDiffs_of_zip (c1 c2 : ClassModel)
    (p : (String × FieldVal) × String × FieldVal) (hp : p ∈ c1.fields.zip c2.fields) :
    p.1.2 ≠ p.2.2 ↔ (p.1.1, p.1.2, p.2.2) ∈ classFieldDiffs c1 c2 := by
  constructor
  · intro hne
    unfold classFieldDiffs
    rw [List.mem_filterMap]
    exact ⟨p, hp, by rw [if_neg hne]⟩
  · intro hmem
    unfold classFieldDiffs at hmem
    rw [List.mem_filterMap] at hmem
    obtain ⟨a, _, hfa⟩ := hmem
    by_cases he : a.1.2 = a.2.2
    · rw [if_pos he] at hfa
      exact absurd hfa (by simp)
    · rw [if_neg he] at hfa
      have h3 := Option.some.inj hfa
      simp only [Prod.mk.injEq] at h3
      rw [← h3.2.1, ← h3.2.2]
      exact he

theorem dictGet?_some_iff_mem_keys {α : Type} (m : List (String × α)) (k : String) :
    (∃ v, dictGet? m k = some v) ↔ k ∈ dictKeys m := by
  unfold dictGet? dictKeys
  constructor
  · rintro ⟨v, hv⟩
    rw [Option.map_eq_some'] at hv
    obtain ⟨p, hfind, _⟩ := hv
    have hmem := List.mem_of_find?_eq_some hfind
    have hbeq := List.find?_some hfind
    rw [List.mem_map]
    exact ⟨p, hmem, eq_of_beq hbeq⟩
  · intro hk
    rw [List.mem_map] at hk
    obtain ⟨p, hp, hfst⟩ := hk
    have h2 : (m.find? (fun q => q.1 == k)).isSome :=
      List.find?_isSome.mpr ⟨p, hp, by rw [← hfst]; simp⟩
    obtain ⟨q, hq⟩ := Option.isSome_iff_exists.mp h2
    exact ⟨q.2, by rw [hq]; rfl⟩

theorem commonClassEntry_eq_some_iff (classes1 classes2 : List (String × ClassModel))
    (k : String) (t : String × List (String × FieldVal × FieldVal)) :
    commonClassEntry classes1 classes2 k = some t ↔
      ∃ m1 m2, dictGet? classes1 k = some m1 ∧ dictGet? classes2 k = some m2 ∧
        classFieldDiffs m1 m2 ≠ [] ∧ t = (k, classFieldDiffs m1 m2) := by
  unfold commonClassEntry
  cases hx : dictGet? classes1 k with
  | none => simp
  | some m1 =>
    cases hy : dictGet? classes2 k with
    | none => simp
    | some m2 =>
      show (if (classFieldDiffs m1 m2).isEmpty = true then none
            else some (k, classFieldDiffs m1 m2)) = some t ↔ _
      by_cases hd : classFieldDiffs m1 m2 = []
      · rw [if_pos (by simp [List.isEmpty_iff, hd])]
        constructor
        · intro h4
          exact absurd h4 (by simp)
        · rintro ⟨m1b, m2b, hm1, hm2, hne2, rfl⟩
          cases Option.some.inj hm1
          cases Option.some.inj hm2
          exact absurd hd hne2
      · rw [if_neg (by simp [List.isEmpty_iff, hd])]
        constructor
        · intro h4
          exact ⟨m1, m2, rfl, rfl, hd, (Option.some.inj h4).symm⟩
        · rintro ⟨m1b, m2b, hm1, hm2, hne2, rfl⟩
          cases Option.some.inj hm1
          cases Option.some.inj hm2
          rfl

theorem contains_eq_true_of_mem (l : List String) (a : String) (h : a ∈ l) :
    l.contains a = true := by
  simp [List.contains, h]

theorem mem_of_contains_eq_true (l : List String) (a : String) (h : l.contains a = true) :
    a ∈ l := by
  simpa [List.contains] using h

/-- The two containers of the end-to-end scenario: the same class "a.B"
with superclass "java.lang.Object" on both sides, one static field on the
first side and two on the second, everything else identical. -/
def exCont1 : ParsedDex :=
  { magic := [0x64, 0x65, 0x78, 0x0A, 0x30, 0x33, 0x35, 0]
    endian_tag := 0x12345678
    typeids := [0, 1]
    strings := [[97, 46, 66],
                [106, 97, 118, 97, 46, 108, 97, 110, 103, 46, 79, 98, 106, 101, 99, 116]]
    protoids := []
    methodids := []
    classdefs := [⟨0, none, 1, 5⟩]
    class_data_table := [(5, ⟨1, 0, 0, 0⟩)] }

/-- The second container of the end-to-end scenario: identical to
`exCont1` except that the class-data block at offset 5 declares two
static fields. -/
def exCont2 : ParsedDex :=
  { exCont1 with class_data_table := [(5, ⟨2, 0, 0, 0⟩)] }

/-- C3: the common-class comparison compares every field of the two
per-class records pairwise and records exactly the mismatching fields
(first part: a paired field is recorded if and only if its two values
differ); a class appears in common_classes_with_differences exactly when
it is present on both sides and has at least one mismatching field, so a
class with zero mismatching fields is omitted (second part); and the
end-to-end scenario — two containers whose only divergence is class "a.B"
having one versus two static fields — produces exactly
the static_fields_count entry under "a.B" and empty unique-class sets
(third part). -/
theorem c3_class_field_differences :
    (∀ c1 c2 : ClassModel, ∀ p ∈ c1.fields.zip c2.fields,
        p.1.2 ≠ p.2.2 ↔ (p.1.1, p.1.2, p.2.2) ∈ classFieldDiffs c1 c2) ∧
    (∀ (classes1 classes2 : List (String × ClassModel)) (nm : String),
        nm ∈ dictKeys (compare_classes classes1 classes2).common_classes_with_differences ↔
          (nm ∈ dictKeys classes1 ∧ nm ∈ dictKeys classes2 ∧
            ∃ m1 m2, dictGet? classes1 nm = some m1 ∧ dictGet? classes2 nm = some m2 ∧
              classFieldDiffs m1 m2 ≠ [])) ∧
    compare_dex_files exCont1 exCont2 = Except.ok
      { classes :=
          { unique_to_dex1 := [], unique_to_dex2 := []
            common_classes_with_differences :=
              [("a.B", [("static_fields_count", FieldVal.nat 1, FieldVal.nat 2)])] }
        methods :=
          { unique_classes_to_dex1 := [], unique_classes_to_dex2 := []
            common_classes_with_method_differences := [] } } := by
  refine ⟨mem_classFieldDiffs_of_zip, ?_, by rfl⟩
  intro classes1 classes2 nm
  have hred : (compare_classes classes1 classes2).common_classes_with_differences =
      ((dictKeys classes1).filter (fun k => (dictKeys classes2).contains k)).filterMap
        (commonClassEntry classes1 classes2) := rfl
  rw [hred]
  unfold dictKeys
  rw [List.mem_map]
  constructor
  · rintro ⟨t, ht, hfst⟩
    rw [List.mem_filterMap] at ht
    obtain ⟨k, hk, hsome⟩ := ht
    obtain ⟨m1, m2, hg1, hg2, hne, hteq⟩ :=
      (commonClassEntry_eq_some_iff classes1 classes2 k t).mp hsome
    have hknm : k = nm := by rw [hteq] at hfst; exact hfst
    subst hknm
    rw [List.mem_filter] at hk
    exact ⟨hk.1, mem_of_contains_eq_true _ k hk.2, m1, m2, hg1, hg2, hne⟩
  · rintro ⟨h1, h2, m1, m2, hg1, hg2, hne⟩
    refine ⟨(nm, classFieldDiffs m1 m2), List.mem_filterMap.mpr ?_, rfl⟩
    refine ⟨nm, List.mem_filter.mpr ⟨h1, contains_eq_true_of_mem _ nm h2⟩, ?_⟩
    exact (commonClassEntry_eq_some_iff classes1 classes2 nm _).mpr
      ⟨m1, m2, hg1, hg2, hne, rfl⟩

/-- The per-class records the two scenario containers extract to. -/
def exModelA : ClassModel := ⟨0, [], "java.lang.Object", 1, 0, 0, 0⟩

/-- The second scenario record: two static fields instead of one. -/
def exModelB : ClassModel := ⟨0, [], "java.lang.Object", 2, 0, 0, 0⟩

theorem c3_class_field_differences_witness :
    (("static_fields_count", FieldVal.nat 1, FieldVal.nat 2) ∈
      classFieldDiffs exModelA exModelB) ∧
    ("a.B" ∈ dictKeys (compare_classes [("a.B", exModelA)]
        [("a.B", exModelB)]).common_classes_with_differences) :=
  ⟨(c3_class_field_differences.1 exModelA exModelB
      (("static_fields_count", FieldVal.nat 1), ("static_fields_count", FieldVal.nat 2))
      (by decide)).mp (by decide),
   (c3_class_field_differences.2.1 [("a.B", exModelA)] [("a.B", exModelB)] "a.B").mpr
     ⟨by decide, by decide, exModelA, exModelB, by rfl, by rfl, by decide⟩⟩

theorem sigDiffsFor_eq_nil_of_sigTable_iff (n : String) (G1 G2 : List MethodModel)
    (h : ∀ s, s ∈ sigTable G1 ↔ s ∈ sigTable G2) : sigDiffsFor n G1 G2 = [] := by
  have hc : ∀ s, (sigTable G1).contains s = (sigTable G2).contains s := by
    intro s
    by_cases hs : s ∈ sigTable G1
    · rw [show (sigTable G1).contains s = true by simp [List.contains, hs],
         show (sigTable G2).contains s = true by simp [List.contains, (h s).mp hs]]
    · rw [show (sigTable G1).contains s = false by simp [List.contains, hs],
         show (sigTable G2).contains s = false by
           simp [List.contains]
           exact fun hs2 => hs ((h s).mpr hs2)]
  have hf : G1.filter (fun m => divergentSig (sigTable G1) (sigTable G2) (sigOf m)) = [] := by
    rw [List.filter_eq_nil_iff]
    intro m _
    simp only [divergentSig, hc (sigOf m), bne_self_eq_false, not_false_eq_true]
    simp
  unfold sigDiffsFor
  rw [hf]
  rfl

theorem method_name_of_mem_sigDiffsFor (n : String) (G1 G2 : List MethodModel)
    (e : SigDiffEntry) (he : e ∈ sigDiffsFor n G1 G2) : e.method_name = n := by
  unfold sigDiffsFor at he
  rw [List.mem_flatMap] at he
  obtain ⟨m1, _, he2⟩ := he
  rw [List.mem_map] at he2
  obtain ⟨m2, _, rfl⟩ := he2
  rfl

theorem filter_flatMap_comm {α β : Type} (l : List α) (f : α → List β) (p : β → Bool) :
    (l.flatMap f).filter p = l.flatMap (fun a => (f a).filter p) := by
  induction l with
  | nil => rfl
  | cons a t ih => simp [List.flatMap_cons, List.filter_append, ih]

theorem flatMap_eq_of_single {α β : Type} (a : α) (f : α → List β) :
    ∀ (l : List α), l.Nodup → a ∈ l → (∀ b ∈ l, b ≠ a → f b = []) →
      l.flatMap f = f a := by
  intro l
  induction l with
  | nil => intro _ ha _; cases ha
  | cons x t ih =>
    intro hnd ha hf
    rw [List.flatMap_cons]
    rw [List.nodup_cons] at hnd
    rcases List.mem_cons.mp ha with heq | hat
    · subst heq
      have htail : t.flatMap f = [] := by
        rw [List.eq_nil_iff_forall_not_mem]
        intro e he
        rw [List.mem_flatMap] at he
        obtain ⟨b, hb, hbe⟩ := he
        have hbne : b ≠ a := by
          intro hba
          exact hnd.1 (by rw [← hba]; exact hb)
        rw [hf b (List.mem_cons_of_mem a hb) hbne] at hbe
        exact List.not_mem_nil e hbe
      rw [htail, List.append_nil]
    · have hx : f x = [] := by
        refine hf x (List.mem_cons_self x t) ?_
        intro hxa
        exact hnd.1 (by rw [hxa]; exact hat)
      rw [hx, List.nil_append]
      exact ih hnd.2 hat (fun b hb hbne => hf b (List.mem_cons_of_mem x hb) hbne)

/-- C2: the signature-difference entries of a common class.  First part:
among the class's emitted method_signature_differences, the entries
carrying a method name present on both sides are exactly the
cross-product emission for that name's two overload groups.  Second part:
an entry belongs to that emission exactly when it pairs a first-side
overload and a second-side overload whose (shorty, return_type) pairs
both lie in the symmetric difference of the two sides' overload-pair
sets.  Third part (overload tolerance): when the two sides have the same
overload-pair set — in any order, with any multiplicity — no entry is
produced.  Fourth part (genuine divergence): when each side has a single
overload and they differ, exactly one entry is produced, pairing the
two. -/
theorem c2_signature_difference_entries :
    (∀ (g1 g2 : List MethodModel) (n : String),
        n ∈ g1.map (fun m => m.name) → n ∈ g2.map (fun m => m.name) →
        (compareMethodsForClass g1 g2).method_signature_differences.filter
            (fun e => e.method_name == n) =
          sigDiffsFor n (methodsNamed g1 n) (methodsNamed g2 n)) ∧
    (∀ (n : String) (G1 G2 : List MethodModel) (e : SigDiffEntry),
        e ∈ sigDiffsFor n G1 G2 ↔
          ∃ m1, m1 ∈ G1 ∧ divergentSig (sigTable G1) (sigTable G2) (sigOf m1) = true ∧
            ∃ m2, m2 ∈ G2 ∧ divergentSig (sigTable G1) (sigTable G2) (sigOf m2) = true ∧
              e = ⟨n, m1, m2⟩) ∧
    (∀ (n : String) (G1 G2 : List MethodModel),
        (∀ s, s ∈ sigTable G1 ↔ s ∈ sigTable G2) → sigDiffsFor n G1 G2 = []) ∧
    (∀ (n : String) (m1 m2 : MethodModel), sigOf m1 ≠ sigOf m2 →
        sigDiffsFor n [m1] [m2] = [⟨n, m1, m2⟩]) := by
  refine ⟨?_, ?_, ?_, ?_⟩
  · intro g1 g2 n h1 h2
    have hn1 : n ∈ methodNamesOf g1 := by simpa [methodNamesOf] using h1
    have hn2 : n ∈ methodNamesOf g2 := by simpa [methodNamesOf] using h2
    have hred : (compareMethodsForClass g1 g2).method_signature_differences =
        ((methodNamesOf g1).filter (fun k => (methodNamesOf g2).contains k)).flatMap
          (fun k => sigDiffsFor k (methodsNamed g1 k) (methodsNamed g2 k)) := rfl
    rw [hred, filter_flatMap_comm]
    refine flatMap_eq_of_single n _ _ ?_ ?_ ?_ |>.trans ?_
    · exact ((List.nodup_dedup _).filter _)
    · exact List.mem_filter.mpr ⟨hn1, by simp [List.contains, hn2]⟩
    · intro b _ hbn
      rw [List.filter_eq_nil_iff]
      intro e he
      rw [method_name_of_mem_sigDiffsFor b _ _ e he]
      simp [hbn]
    · refine List.filter_eq_self.mpr ?_
      intro e he
      rw [method_name_of_mem_sigDiffsFor n _ _ e he]
      simp
  · intro n G1 G2 e
    constructor
    · intro he
      unfold sigDiffsFor at he
      rw [List.mem_flatMap] at he
      obtain ⟨m1, hm1, he2⟩ := he
      rw [List.mem_map] at he2
      obtain ⟨m2, hm2, rfl⟩ := he2
      rw [List.mem_filter] at hm1 hm2
      exact ⟨m1, hm1.1, hm1.2, m2, hm2.1, hm2.2, rfl⟩
    · rintro ⟨m1, h1, hd1, m2, h2, hd2, rfl⟩
      unfold sigDiffsFor
      rw [List.mem_flatMap]
      exact ⟨m1, List.mem_filter.mpr ⟨h1, hd1⟩,
        List.mem_map.mpr ⟨m2, List.mem_filter.mpr ⟨h2, hd2⟩, rfl⟩⟩
  · exact sigDiffsFor_eq_nil_of_sigTable_iff
  · intro n m1 m2 hne
    have h12 : (sigOf m1 == sigOf m2) = false := by simp [hne]
    have h21 : (sigOf m2 == sigOf m1) = false := by simp [Ne.symm hne]
    simp [sigDiffsFor, sigTable, divergentSig, List.contains, List.elem, h12, h21]

/-- The two overloads of the genuine-divergence scenario. -/
def exMethA : MethodModel := ⟨0, "m", "VL", "void"⟩

/-- The second side's sole overload of the same method name. -/
def exMethB : MethodModel := ⟨0, "m", "IL", "int"⟩

theorem c2_signature_difference_entries_witness :
    ((compareMethodsForClass [exMethA] [exMethB]).method_signature_differences.filter
        (fun e => e.method_name == "m") =
      sigDiffsFor "m" (methodsNamed [exMethA] "m") (methodsNamed [exMethB] "m")) ∧
    (⟨"m", exMethA, exMethB⟩ ∈ sigDiffsFor "m" [exMethA] [exMethB]) ∧
    sigDiffsFor "m" [exMethA, exMethB] [exMethB, exMethA] = [] ∧
    sigDiffsFor "m" [exMethA] [exMethB] = [⟨"m", exMethA, exMethB⟩] :=
  ⟨c2_signature_difference_entries.1 [exMethA] [exMethB] "m" (by decide) (by decide),
   (c2_signature_difference_entries.2.1 "m" [exMethA] [exMethB]
       ⟨"m", exMethA, exMethB⟩).mpr
     ⟨exMethA, by decide, by rfl, exMethB, by decide, by rfl, rfl⟩,
   c2_signature_difference_entries.2.2.1 "m" [exMethA, exMethB] [exMethB, exMethA]
     (by intro s; simp [sigTable, sigOf, exMethA, exMethB, or_comm]),
   c2_signature_difference_entries.2.2.2 "m" exMethA exMethB (by decide)⟩

/-- Two class models agreeing on every semantic attribute — access flags,
superclass, all four member counts — and differing only in the
compiler-assigned class index. -/
def exIdxModelA : ClassModel := ⟨0, [], "S", 1, 2, 3, 4⟩

/-- The same model under class index 1 instead of 0. -/
def exIdxModelB : ClassModel := ⟨1, [], "S", 1, 2, 3, 4⟩

/-- A method mapping shared verbatim by both sides. -/
def exMeths : List (String × List MethodModel) := [("C", [⟨0, "m", "VL", "void"⟩])]

/-- C4 counterexample: two extracted models that agree on class names,
access flags, superclass names, member counts and method sets, and differ
only in the numeric class index, nevertheless produce a nonempty report:
the class comparison records an "id" difference, because the raw index is
stored in the per-class record and compared like any other field.  The
claim that such inputs yield no recorded differences is therefore false
as stated. -/
theorem c4_counterexample_class_idx_reported :
    exIdxModelA.access = exIdxModelB.access ∧
    exIdxModelA.superclass = exIdxModelB.superclass ∧
    exIdxModelA.static_fields_count = exIdxModelB.static_fields_count ∧
    exIdxModelA.instance_fields_count = exIdxModelB.instance_fields_count ∧
    exIdxModelA.direct_methods_count = exIdxModelB.direct_methods_count ∧
    exIdxModelA.virtual_methods_count = exIdxModelB.virtual_methods_count ∧
    exIdxModelA.id ≠ exIdxModelB.id ∧
    compare_methods exMeths exMeths =
      { unique_classes_to_dex1 := [], unique_classes_to_dex2 := [],
        common_classes_with_method_differences := [] } ∧
    (compare_classes [("C", exIdxModelA)] [("C", exIdxModelB)]).unique_to_dex1 = [] ∧
    (compare_classes [("C", exIdxModelA)] [("C", exIdxModelB)]).unique_to_dex2 = [] ∧
    (compare_classes [("C", exIdxModelA)]
        [("C", exIdxModelB)]).common_classes_with_differences =
      [("C", [("id", FieldVal.nat 0, FieldVal.nat 1)])] ∧
    (compare_classes [("C", exIdxModelA)]
        [("C", exIdxModelB)]).common_classes_with_differences ≠ [] := by
  decide

theorem filter_not_contains_of_subset (l1 l2 : List String)
    (h : ∀ k, k ∈ l1 → k ∈ l2) : l1.filter (fun k => !l2.contains k) = [] := by
  rw [List.filter_eq_nil_iff]
  intro a ha
  simp [List.contains, h a ha]

theorem mem_sigTable_methodsNamed (g : List MethodModel) (n : String) (s1 s2 : String) :
    (s1, s2) ∈ sigTable (methodsNamed g n) ↔ (n, s1, s2) ∈ g.map method_key := by
  unfold sigTable methodsNamed method_key sigOf
  rw [List.mem_map, List.mem_map]
  constructor
  · rintro ⟨m, hm, heq⟩
    rw [List.mem_filter] at hm
    have hname : m.name = n := by simpa using hm.2
    simp only [Prod.mk.injEq] at heq
    exact ⟨m, hm.1, by rw [hname, heq.1, heq.2]⟩
  · rintro ⟨m, hm, heq⟩
    simp only [Prod.mk.injEq] at heq
    refine ⟨m, List.mem_filter.mpr ⟨hm, by simp [heq.1]⟩, ?_⟩
    rw [heq.2.1, heq.2.2]

theorem compareMethodsForClass_eq_empty_of_keys (g1 g2 : List MethodModel)
    (h : ∀ q, q ∈ g1.map method_key ↔ q ∈ g2.map method_key) :
    compareMethodsForClass g1 g2 =
      { unique_methods_to_dex1 := [], unique_methods_to_dex2 := [],
        method_signature_differences := [] } := by
  have hsig : ∀ (n : String) (s : String × String),
      s ∈ sigTable (methodsNamed g1 n) ↔ s ∈ sigTable (methodsNamed g2 n) := by
    intro n s
    obtain ⟨s1, s2⟩ := s
    rw [mem_sigTable_methodsNamed, mem_sigTable_methodsNamed]
    exact h (n, s1, s2)
  have h1 : g1.filter (fun m => !(g2.map method_key).contains (method_key m)) = [] := by
    rw [List.filter_eq_nil_iff]
    intro m hm
    have h2 : method_key m ∈ g2.map method_key :=
      (h (method_key m)).mp (List.mem_map_of_mem method_key hm)
    simp [List.contains, h2]
  have h2 : g2.filter (fun m => !(g1.map method_key).contains (method_key m)) = [] := by
    rw [List.filter_eq_nil_iff]
    intro m hm
    have h3 : method_key m ∈ g1.map method_key :=
      (h (method_key m)).mpr (List.mem_map_of_mem method_key hm)
    simp [List.contains, h3]
  have h3 : ((methodNamesOf g1).filter (fun n => (methodNamesOf g2).contains n)).flatMap
      (fun n => sigDiffsFor n (methodsNamed g1 n) (methodsNamed g2 n)) = [] := by
    rw [List.eq_nil_iff_forall_not_mem]
    intro e he
    rw [List.mem_flatMap] at he
    obtain ⟨n, _, hn⟩ := he
    rw [sigDiffsFor_eq_nil_of_sigTable_iff n _ _ (hsig n)] at hn
    exact List.not_mem_nil e hn
  unfold compareMethodsForClass
  rw [h1, h2, h3]

/-- C4 amended: the diff never uses a raw index to match entities — classes
are joined by name and methods by the identity key (name, shorty,
return_type), and method-table order or stored method ids produce no
entries: whenever the two method mappings share their class names and
every common class has equal identity-key sets, the whole method
comparison is empty (second part).  However the numeric class index is a
compared field of the per-class record: for class mappings sharing their
names, the unique lists are empty, and a common class whose two records
agree on every field except the index contributes exactly one
"id" difference entry when the indices differ and nothing when they agree
(first part).  So a diff of containers differing only in class_idx values
is not empty: it consists precisely of "id" entries. -/
theorem c4_matching_ignores_order_but_compares_id :
    (∀ (cs1 cs2 : List (String × ClassModel)),
        (∀ k, k ∈ dictKeys cs1 ↔ k ∈ dictKeys cs2) →
        (compare_classes cs1 cs2).unique_to_dex1 = [] ∧
        (compare_classes cs1 cs2).unique_to_dex2 = [] ∧
        (∀ k m1 m2, dictGet? cs1 k = some m1 → dictGet? cs2 k = some m2 →
          m1.access = m2.access → m1.superclass = m2.superclass →
          m1.static_fields_count = m2.static_fields_count →
          m1.instance_fields_count = m2.instance_fields_count →
          m1.direct_methods_count = m2.direct_methods_count →
          m1.virtual_methods_count = m2.virtual_methods_count →
          commonClassEntry cs1 cs2 k =
            (if m1.id = m2.id then none
             else some (k, [("id", FieldVal.nat m1.id, FieldVal.nat m2.id)])))) ∧
    (∀ (ms1 ms2 : List (String × List MethodModel)),
        (∀ k, k ∈ dictKeys ms1 ↔ k ∈ dictKeys ms2) →
        (∀ k g1 g2, dictGet? ms1 k = some g1 → dictGet? ms2 k = some g2 →
          ∀ q, q ∈ g1.map method_key ↔ q ∈ g2.map method_key) →
        compare_methods ms1 ms2 =
          { unique_classes_to_dex1 := [], unique_classes_to_dex2 := [],
            common_classes_with_method_differences := [] }) := by
  constructor
  · intro cs1 cs2 hkeys
    refine ⟨filter_not_contains_of_subset _ _ (fun k hk => (hkeys k).mp hk),
      filter_not_contains_of_subset _ _ (fun k hk => (hkeys k).mpr hk), ?_⟩
    intro k m1 m2 hg1 hg2 hacc hsup hc1 hc2 hc3 hc4
    have hdiffs : classFieldDiffs m1 m2 =
        (if m1.id = m2.id then []
         else [("id", FieldVal.nat m1.id, FieldVal.nat m2.id)]) := by
      unfold classFieldDiffs ClassModel.fields
      by_cases hid : m1.id = m2.id
      · rw [if_pos hid]
        simp [hid, hacc, hsup, hc1, hc2, hc3, hc4]
      · rw [if_neg hid]
        simp [hid, hacc, hsup, hc1, hc2, hc3, hc4]
    unfold commonClassEntry
    rw [hg1, hg2]
    show (if (classFieldDiffs m1 m2).isEmpty = true then none
          else some (k, classFieldDiffs m1 m2)) = _
    rw [hdiffs]
    by_cases hid : m1.id = m2.id
    · rw [if_pos hid, if_pos hid]
      rfl
    · rw [if_neg hid, if_neg hid]
      rfl
  · intro ms1 ms2 hkeys hgroups
    have hu1 : (dictKeys ms1).filter (fun k => !(dictKeys ms2).contains k) = [] :=
      filter_not_contains_of_subset _ _ (fun k hk => (hkeys k).mp hk)
    have hu2 : (dictKeys ms2).filter (fun k => !(dictKeys ms1).contains k) = [] :=
      filter_not_contains_of_subset _ _ (fun k hk => (hkeys k).mpr hk)
    have hcommon : ((dictKeys ms1).filter
        (fun k => (dictKeys ms2).contains k)).filterMap (commonMethodEntry ms1 ms2) = [] := by
      rw [List.filterMap_eq_nil_iff]
      intro k hk
      rw [List.mem_filter] at hk
      obtain ⟨g1, hg1⟩ := (dictGet?_some_iff_mem_keys ms1 k).mpr hk.1
      obtain ⟨g2, hg2⟩ := (dictGet?_some_iff_mem_keys ms2 k).mpr
        (mem_of_contains_eq_true _ k hk.2)
      unfold commonMethodEntry
      rw [hg1, hg2]
      show (if hasAnyDifference (compareMethodsForClass g1 g2) = true
            then some (k, compareMethodsForClass g1 g2) else none) = none
      rw [compareMethodsForClass_eq_empty_of_keys g1 g2 (hgroups k g1 g2 hg1 hg2)]
      rfl
    unfold compare_methods
    rw [hu1, hu2, hcommon]

theorem c4_matching_ignores_order_but_compares_id_witness :
    commonClassEntry [("C", exIdxModelA)] [("C", exIdxModelB)] "C" =
      some ("C", [("id", FieldVal.nat 0, FieldVal.nat 1)]) ∧
    compare_methods exMeths exMeths =
      { unique_classes_to_dex1 := [], unique_classes_to_dex2 := [],
        common_classes_with_method_differences := [] } :=
  ⟨by
    have h := (c4_matching_ignores_order_but_compares_id.1
        [("C", exIdxModelA)] [("C", exIdxModelB)] (fun k => Iff.rfl)).2.2
        "C" exIdxModelA exIdxModelB (by rfl) (by rfl) rfl rfl rfl rfl rfl rfl
    rw [h]
    rfl,
   c4_matching_ignores_order_but_compares_id.2 exMeths exMeths (fun k => Iff.rfl)
     (fun k g1 g2 hg1 hg2 => by
       rw [hg1] at hg2
       cases Option.some.inj hg2
       exact fun q => Iff.rfl)⟩

end DexDiff
